import Mathlib

/-!
Shallow embedding of the EC2 cost-optimizer recommendation engine, from
`src/ec2-cost-optimizer-enhanced.py` (class `EC2CostOptimizer`) and
`src/ec2-cost-optimizer.py` (the basic variant).

Modelling conventions: Python strings are Lean `String`; `str.split('.')`
is modelled character by character; Python floats are exact rationals `ℚ`;
the per-run pricing cache (a Python dict written only on misses) is an
association list; the external AWS collaborators are parameters of the
functions that call them.  A pricing oracle returns
`Except Unit (Option ℚ)`: `.error` means the call raised an exception,
`.ok none` means the response's `PriceList` was empty (no matching SKU),
`.ok (some p)` means the first SKU parsed to hourly price `p`.  A metrics
oracle returns `Except Unit (List Datapoint)` for the CloudWatch call.
Printing to the console is not modelled except for the warning prints of
`get_instance_price`, recorded in a `warned` flag.
-/

/-- Python `s.split(sep)` restricted to `sep = '.'`, on the character list:
accumulate the current segment (in reverse) and emit a segment at each
separator.  Matches CPython: `"".split('.') = ['']`, `"a.".split('.') =
['a','']`, `"a..b".split('.') = ['a','','b']`. -/
def splitCharAux : List Char → List Char → List (List Char)
  | [], acc => [acc.reverse]
  | c :: rest, acc =>
    if c = '.' then acc.reverse :: splitCharAux rest []
    else splitCharAux rest (c :: acc)

/-- Python `current_type.split('.')` (ec2-cost-optimizer-enhanced.py, line 128). -/
def pySplit (s : String) : List String :=
  (splitCharAux s.data []).map String.mk

/-- Python `s.startswith(p)`. -/
def strStartsWith (p s : String) : Bool :=
  p.data.isPrefixOf s.data

/-- The four category tags used by the enhanced script: the string literals
`'graviton'`, `'amd'`, `'intel'`, `'downsize'` appearing in its
alternative tuples and in the `total_potential_savings` dict. -/
inductive Category
  | graviton | amd | intel | downsize
deriving DecidableEq

/-- Rationale (description) strings of the enhanced script.  The constant
descriptions are kept verbatim; the downsize rationale is the Python
f-string `Downsize (low CPU: ...%)` interpolating `cpu_avg` (line 204),
modelled structurally by a constructor carrying the interpolated value. -/
inductive Desc
  | plain (s : String)
  | downsizeLowCpu (cpuAvg : ℚ)
deriving DecidableEq

/-- One alternative tuple `(alt_type, description, category)` of the enhanced
script. -/
abbrev Alt := String × Desc × Category

/-- The `downsize_map` dict literal (enhanced script, lines 193-200). -/
def downsize_map : List (String × String) :=
  [("xlarge", "large"), ("large", "medium"), ("medium", "small"),
   ("small", "micro"), ("2xlarge", "xlarge"), ("4xlarge", "2xlarge")]

/-- The family-transition rules of `get_alternative_instances` (enhanced
script, lines 134-189): the if/elif chain on `family`, each branch
extending `alternatives` with the listed tuples, preserving the size. -/
def baseAlternatives (family size : String) : List Alt :=
  if strStartsWith "t3" family then
    [("t4g." ++ size, .plain "Graviton2 ARM - 20% cheaper", .graviton),
     ("t3a." ++ size, .plain "AMD - 10% cheaper", .amd)]
  else if strStartsWith "t2" family then
    [("t3." ++ size, .plain "Newer generation", .intel),
     ("t4g." ++ size, .plain "Graviton2 ARM - 20% cheaper", .graviton)]
  else if family = "m5" then
    [("m7g." ++ size, .plain "Graviton3 - Latest gen", .graviton),
     ("m6a." ++ size, .plain "AMD - 10% cheaper", .amd),
     ("m6i." ++ size, .plain "Intel 6th gen", .intel)]
  else if family = "m6i" then
    [("m7g." ++ size, .plain "Graviton3 - Better price/perf", .graviton),
     ("m6a." ++ size, .plain "AMD - 10% cheaper", .amd)]
  else if family = "m4" then
    [("m7g." ++ size, .plain "Graviton3 - Latest", .graviton),
     ("m6i." ++ size, .plain "Intel 6th gen", .intel),
     ("m5." ++ size, .plain "Intel 5th gen", .intel)]
  else if family = "c5" then
    [("c7g." ++ size, .plain "Graviton3 - Best price/perf", .graviton),
     ("c6a." ++ size, .plain "AMD", .amd),
     ("c6i." ++ size, .plain "Intel 6th gen", .intel)]
  else if family = "c4" then
    [("c7g." ++ size, .plain "Graviton3", .graviton),
     ("c6i." ++ size, .plain "Intel 6th gen", .intel)]
  else if family = "r5" then
    [("r7g." ++ size, .plain "Graviton3", .graviton),
     ("r6a." ++ size, .plain "AMD", .amd),
     ("r6i." ++ size, .plain "Intel 6th gen", .intel)]
  else if family = "r4" then
    [("r7g." ++ size, .plain "Graviton3", .graviton),
     ("r6i." ++ size, .plain "Intel 6th gen", .intel)]
  else []

/-- `EC2CostOptimizer.get_alternative_instances` (enhanced script, lines
123-207): parse `current_type` on `'.'`; with exactly two parts, apply the
family rules, then, when `cpu_avg` is present and `< 20` and the size has a
`downsize_map` entry, append one downsize candidate; any other split shape
returns the empty list. -/
def get_alternative_instances (current_type : String) (cpu_avg : Option ℚ) :
    List Alt :=
  match pySplit current_type with
  | [family, size] =>
    let alternatives := baseAlternatives family size
    match cpu_avg with
    | some a =>
      if a < 20 then
        match List.lookup size downsize_map with
        | some smaller_size =>
          alternatives ++
            [(family ++ "." ++ smaller_size, .downsizeLowCpu a, .downsize)]
        | none => alternatives
      else alternatives
    | none => alternatives
  | _ => []

/-- The `region_map` dict literal of `get_instance_price` (enhanced script,
lines 52-61). -/
def region_map : List (String × String) :=
  [("us-east-1", "US East (N. Virginia)"),
   ("us-east-2", "US East (Ohio)"),
   ("us-west-1", "US West (N. California)"),
   ("us-west-2", "US West (Oregon)"),
   ("eu-west-1", "EU (Ireland)"),
   ("eu-central-1", "EU (Frankfurt)"),
   ("ap-southeast-1", "Asia Pacific (Singapore)"),
   ("ap-northeast-1", "Asia Pacific (Tokyo)")]

/-- Python `region_map.get(region, region)` (line 63). -/
def mapRegion (region : String) : String :=
  (List.lookup region region_map).getD region

/-- The cache key `f"{instance_type}_{region}"` (line 47). -/
def priceKey (instance_type region : String) : String :=
  instance_type ++ "_" ++ region

/-- Result of one `get_instance_price` call: the returned price, the pricing
cache after the call, whether the external pricing collaborator was invoked,
and whether the warning print of line 87 ran. -/
structure PriceResult where
  price : ℚ
  cache : List (String × ℚ)
  invoked : Bool
  warned : Bool
deriving DecidableEq

/-- The external pricing collaborator of `get_instance_price`: given the
instance type and the mapped location name, `.error` models the
`get_products` call (or the subsequent JSON parsing) raising, `.ok none`
models an empty `PriceList`, `.ok (some p)` models the first SKU parsing to
hourly price `p`. -/
abbrev PriceOracle := String → String → Except Unit (Option ℚ)

/-- `EC2CostOptimizer.get_instance_price` (enhanced script, lines 42-89):
serve a cache hit without calling the collaborator; on a miss call it, cache
and return a parsed price, print a warning and return 0 if it raised, and
silently return 0 if the `PriceList` was empty.  Failures never raise to the
caller (the function is total) and never write the cache. -/
def get_instance_price (oracle : PriceOracle) (cache : List (String × ℚ))
    (instance_type region : String) : PriceResult :=
  let cache_key := priceKey instance_type region
  match List.lookup cache_key cache with
  | some p => ⟨p, cache, false, false⟩
  | none =>
    match oracle instance_type (mapRegion region) with
    | .error _ => ⟨0, cache, true, true⟩
    | .ok none => ⟨0, cache, true, false⟩
    | .ok (some price_per_hour) =>
      ⟨price_per_hour, (cache_key, price_per_hour) :: cache, true, false⟩

/-- One CloudWatch datapoint with its `Average` and `Maximum` statistics. -/
structure Datapoint where
  average : ℚ
  maximum : ℚ
deriving DecidableEq

/-- The dict returned by `get_instance_metrics` (enhanced script, lines
114-121): `cpu_avg`/`cpu_max` are `None` exactly when absent. -/
structure MetricsResult where
  cpu_avg : Option ℚ
  cpu_max : Option ℚ
  has_data : Bool
deriving DecidableEq

/-- `EC2CostOptimizer.get_instance_metrics` (enhanced script, lines 91-121),
as a function of the CloudWatch response: on a raise return the all-absent
dict; with zero datapoints return `cpu_avg = cpu_max = None`, `has_data =
false`; otherwise the mean of the bucket averages and the max of the bucket
maxima. -/
def get_instance_metrics (response : Except Unit (List Datapoint)) :
    MetricsResult :=
  match response with
  | .error _ => ⟨none, none, false⟩
  | .ok [] => ⟨none, none, false⟩
  | .ok (d :: rest) =>
    let datapoints := d :: rest
    let cpu_avg := (datapoints.map Datapoint.average).sum / datapoints.length
    let cpu_max := rest.foldl (fun m dp => max m dp.maximum) d.maximum
    ⟨some cpu_avg, some cpu_max, true⟩

/-- One per-alternative savings computation (enhanced script, lines 290-292;
identically basic script, lines 155-157). -/
structure SavingsEntry where
  savings_per_hour : ℚ
  savings_per_month : ℚ
  savings_percent : ℚ
deriving DecidableEq

/-- Lines 290-292 of the enhanced script (equal to lines 155-157 of the basic
script): `savings_per_hour = current_price - alt_price`, `savings_per_month =
savings_per_hour * 730`, and `savings_percent = savings_per_hour /
current_price * 100` guarded by `current_price > 0`, else `0`. -/
def computeSavings (current_price alt_price : ℚ) : SavingsEntry :=
  let savings_per_hour := current_price - alt_price
  { savings_per_hour := savings_per_hour
    savings_per_month := savings_per_hour * 730
    savings_percent :=
      if current_price > 0 then savings_per_hour / current_price * 100 else 0 }

/-- The inner `for alt_type, description, category in alternatives` loop of
`analyze_instances` (enhanced script, lines 283-306): resolve each
alternative's price through the shared cache, skip it when the price
resolves to 0, and keep per category the maximum `savings_per_month`, the
`best_savings_by_type` defaultdict starting at 0.  Returns the best-map and
the cache after the loop. -/
def evalAux (oracle : PriceOracle) (region : String) (current_price : ℚ) :
    List Alt → (Category → ℚ) → List (String × ℚ) →
      (Category → ℚ) × List (String × ℚ)
  | [], best, cache => (best, cache)
  | alt :: rest, best, cache =>
    let r := get_instance_price oracle cache alt.1 region
    if r.price = 0 then evalAux oracle region current_price rest best r.cache
    else
      let entry := computeSavings current_price r.price
      if best alt.2.2 < entry.savings_per_month then
        evalAux oracle region current_price rest
          (Function.update best alt.2.2 entry.savings_per_month) r.cache
      else evalAux oracle region current_price rest best r.cache

/-- The per-instance best-per-category aggregation of `analyze_instances`
(lines 283-306), started from the empty `best_savings_by_type`. -/
def evalAlternatives (oracle : PriceOracle) (region : String)
    (current_price : ℚ) (cache : List (String × ℚ)) (alternatives : List Alt) :
    (Category → ℚ) × List (String × ℚ) :=
  evalAux oracle region current_price alternatives (fun _ => 0) cache

/-- One inventory record as consumed by both analysis loops: `InstanceId`,
`InstanceType`, and `State.Name` of a `describe_instances` entry.  The
`Tags` are only used for console output and are not modelled. -/
structure InstanceRecord where
  instance_id : String
  instance_type : String
  state : String
deriving DecidableEq

/-- The external metrics collaborator: CloudWatch response per instance id. -/
abbrev MetricsOracle := String → Except Unit (List Datapoint)

/-- The `cpu_avg` value `analyze_instances` hands to the generator (enhanced
script, lines 254-260): metrics are fetched only when `check_metrics` is on
and the instance is `running`; otherwise the default all-absent dict is
used. -/
def usedCpuAvg (moracle : MetricsOracle) (check_metrics : Bool)
    (inst : InstanceRecord) : Option ℚ :=
  if check_metrics && inst.state == "running" then
    (get_instance_metrics (moracle inst.instance_id)).cpu_avg
  else none

/-- The mutable state of the enhanced `analyze_instances` walk: the pricing
cache plus `instances_analyzed`, `total_current_cost`, and the
`total_potential_savings` per-category dict (lines 220-227). -/
structure AnalyzeState where
  cache : List (String × ℚ)
  instances_analyzed : ℕ
  total_current_cost : ℚ
  total_potential_savings : Category → ℚ

/-- One iteration of the enhanced `analyze_instances` instance loop (lines
229-310): skip terminated instances; resolve the current price and skip on
0; fetch metrics for running instances when enabled; generate alternatives
and skip when empty; otherwise count the instance, add its monthly cost,
run the best-per-category loop, and add each category's best to
`total_potential_savings`. -/
def processInstance (oracle : PriceOracle) (moracle : MetricsOracle)
    (check_metrics : Bool) (region : String) (st : AnalyzeState)
    (inst : InstanceRecord) : AnalyzeState :=
  if inst.state = "terminated" then st
  else
    let r := get_instance_price oracle st.cache inst.instance_type region
    if r.price = 0 then { st with cache := r.cache }
    else
      let current_monthly := r.price * 730
      let cpu_avg := usedCpuAvg moracle check_metrics inst
      match get_alternative_instances inst.instance_type cpu_avg with
      | [] => { st with cache := r.cache }
      | alt :: rest =>
        let res := evalAux oracle region r.price (alt :: rest) (fun _ => 0) r.cache
        { cache := res.2
          instances_analyzed := st.instances_analyzed + 1
          total_current_cost := st.total_current_cost + current_monthly
          total_potential_savings :=
            fun c => st.total_potential_savings c + res.1 c }

/-- The full enhanced `analyze_instances` walk over
`response['Reservations']`, from the freshly initialised state (lines
220-227: empty cache, zero counters and totals). -/
def analyze_instances (oracle : PriceOracle) (moracle : MetricsOracle)
    (check_metrics : Bool) (region : String)
    (reservations : List (List InstanceRecord)) : AnalyzeState :=
  reservations.foldl
    (fun st insts => insts.foldl (processInstance oracle moracle check_metrics region) st)
    ⟨[], 0, 0, fun _ => 0⟩

/-- The price a miss would resolve to: what `get_instance_price` computes
from the collaborator when the pair is not cached (0 on a raise or an empty
`PriceList`). -/
def priceOf (oracle : PriceOracle) (instance_type region : String) : ℚ :=
  match oracle instance_type (mapRegion region) with
  | .ok (some p) => p
  | _ => 0

/-- A pricing cache is consistent (for the fixed region the run uses) when
every cached pair holds exactly the price its miss would have resolved to.
The freshly initialised empty cache is consistent, and every
`get_instance_price` call preserves consistency. -/
def Consistent (oracle : PriceOracle) (region : String)
    (cache : List (String × ℚ)) : Prop :=
  ∀ t : String, List.lookup (priceKey t region) cache = none ∨
    List.lookup (priceKey t region) cache = some (priceOf oracle t region)

/-- The best-per-category loop of lines 283-306 re-expressed without the
cache: each alternative's price is its oracle-determined value `priceOf`.
Under a `Consistent` cache this computes the same best-map as `evalAux`. -/
def bestPureAux (oracle : PriceOracle) (region : String) (current_price : ℚ) :
    List Alt → (Category → ℚ) → (Category → ℚ)
  | [], best => best
  | alt :: rest, best =>
    let ap := priceOf oracle alt.1 region
    if ap = 0 then bestPureAux oracle region current_price rest best
    else
      let entry := computeSavings current_price ap
      if best alt.2.2 < entry.savings_per_month then
        bestPureAux oracle region current_price rest
          (Function.update best alt.2.2 entry.savings_per_month)
      else bestPureAux oracle region current_price rest best

/-- The static `pricing_map` dict of the basic script's
`get_instance_pricing_estimate` (ec2-cost-optimizer.py, lines 18-36). -/
def pricing_map : List (String × ℚ) :=
  [("t3.nano", 0.0052), ("t3.micro", 0.0104), ("t3.small", 0.0208),
   ("t3.medium", 0.0416), ("t3.large", 0.0832), ("t3.xlarge", 0.1664),
   ("t3.2xlarge", 0.3328),
   ("t3a.nano", 0.0047), ("t3a.micro", 0.0094), ("t3a.small", 0.0188),
   ("t3a.medium", 0.0376), ("t3a.large", 0.0752), ("t3a.xlarge", 0.1504),
   ("t3a.2xlarge", 0.3008),
   ("t4g.nano", 0.0042), ("t4g.micro", 0.0084), ("t4g.small", 0.0168),
   ("t4g.medium", 0.0336), ("t4g.large", 0.0672), ("t4g.xlarge", 0.1344),
   ("t4g.2xlarge", 0.2688),
   ("m5.large", 0.096), ("m5.xlarge", 0.192), ("m5.2xlarge", 0.384),
   ("m6i.large", 0.096), ("m6i.xlarge", 0.192), ("m6i.2xlarge", 0.384),
   ("m6a.large", 0.0864), ("m6a.xlarge", 0.1728), ("m6a.2xlarge", 0.3456),
   ("m7g.medium", 0.0408), ("m7g.large", 0.0816), ("m7g.xlarge", 0.1632)]

/-- Basic script `get_instance_pricing_estimate` (lines 13-37):
`pricing_map.get(instance_type, 0)`. -/
def get_instance_pricing_estimate (instance_type : String) : ℚ :=
  (List.lookup instance_type pricing_map).getD 0

/-- The `t3_to_alternatives` dict of the basic script (lines 44-52). -/
def t3_to_alternatives : List (String × List (String × String)) :=
  [("t3.nano", [("t4g.nano", "Graviton2 ARM"), ("t3a.nano", "AMD")]),
   ("t3.micro", [("t4g.micro", "Graviton2 ARM"), ("t3a.micro", "AMD")]),
   ("t3.small", [("t4g.small", "Graviton2 ARM"), ("t3a.small", "AMD")]),
   ("t3.medium", [("t4g.medium", "Graviton2 ARM"), ("t3a.medium", "AMD")]),
   ("t3.large", [("t4g.large", "Graviton2 ARM"), ("t3a.large", "AMD")]),
   ("t3.xlarge", [("t4g.xlarge", "Graviton2 ARM"), ("t3a.xlarge", "AMD")]),
   ("t3.2xlarge", [("t4g.2xlarge", "Graviton2 ARM"), ("t3a.2xlarge", "AMD")])]

/-- The `m5_to_alternatives` dict of the basic script (lines 55-59). -/
def m5_to_alternatives : List (String × List (String × String)) :=
  [("m5.large",
    [("m7g.large", "Graviton3"), ("m6a.large", "AMD"),
     ("m6i.large", "Intel 6th gen")]),
   ("m5.xlarge",
    [("m7g.xlarge", "Graviton3"), ("m6a.xlarge", "AMD"),
     ("m6i.xlarge", "Intel 6th gen")]),
   ("m5.2xlarge",
    [("m7g.2xlarge", "Graviton3"), ("m6a.2xlarge", "AMD"),
     ("m6i.2xlarge", "Intel 6th gen")])]

/-- Basic script `get_alternative_instances` (lines 39-66): membership
lookups in the two dicts, else the empty list. -/
def get_alternative_instances_basic (current_type : String) :
    List (String × String) :=
  match List.lookup current_type t3_to_alternatives with
  | some alts => alts
  | none =>
    match List.lookup current_type m5_to_alternatives with
    | some alts => alts
    | none => []

/-- Characters of `s.lower()` for the basic script's category test. -/
def lowerStr (s : String) : List Char :=
  s.data.map Char.toLower

/-- Python substring containment `needle in hay` on character lists. -/
def containsSub (needle : List Char) : List Char → Bool
  | [] => needle.isEmpty
  | c :: rest => List.isPrefixOf needle (c :: rest) || containsSub needle rest

/-- The basic script's category test (line 160): `'graviton' in
description.lower() or 'arm' in description.lower()`. -/
def isGravitonDesc (description : String) : Bool :=
  containsSub "graviton".data (lowerStr description) ||
    containsSub "arm".data (lowerStr description)

/-- The inner alternatives loop of the basic script's `main` (lines 150-165):
track `best_graviton_savings` and `best_non_graviton_savings`, both starting
at 0, skipping alternatives whose static price is 0. -/
def bestSavingsBasic (current_price : ℚ) :
    List (String × String) → ℚ × ℚ → ℚ × ℚ
  | [], best => best
  | (alt_type, description) :: rest, best =>
    let alt_price := get_instance_pricing_estimate alt_type
    if alt_price = 0 then bestSavingsBasic current_price rest best
    else
      let entry := computeSavings current_price alt_price
      if isGravitonDesc description then
        if best.1 < entry.savings_per_month then
          bestSavingsBasic current_price rest (entry.savings_per_month, best.2)
        else bestSavingsBasic current_price rest best
      else
        if best.2 < entry.savings_per_month then
          bestSavingsBasic current_price rest (best.1, entry.savings_per_month)
        else bestSavingsBasic current_price rest best

/-- The accumulators of the basic script's `main` loop (lines 110-113). -/
structure BasicState where
  instances_analyzed : ℕ
  total_current_cost : ℚ
  total_graviton_savings : ℚ
  total_non_graviton_savings : ℚ
deriving DecidableEq

/-- One iteration of the basic script's instance loop (lines 115-181): price
the type from the static map, generate alternatives, skip only when the
alternatives are empty (there is no state check and no zero-price check),
then count the instance, add its monthly cost, and add the two best
savings. -/
def processInstanceBasic (st : BasicState) (inst : InstanceRecord) :
    BasicState :=
  let current_price := get_instance_pricing_estimate inst.instance_type
  let current_monthly := current_price * 730
  match get_alternative_instances_basic inst.instance_type with
  | [] => st
  | alt :: rest =>
    let best := bestSavingsBasic current_price (alt :: rest) (0, 0)
    { instances_analyzed := st.instances_analyzed + 1
      total_current_cost := st.total_current_cost + current_monthly
      total_graviton_savings := st.total_graviton_savings + best.1
      total_non_graviton_savings := st.total_non_graviton_savings + best.2 }

/-- A pricing collaborator that always raises. -/
def failOracle : PriceOracle := fun _ _ => .error ()

/-- A pricing collaborator that always answers with an empty `PriceList`. -/
def noSkuOracle : PriceOracle := fun _ _ => .ok none

/-- A pricing collaborator that always finds the price 10. -/
def tenOracle : PriceOracle := fun _ _ => .ok (some 10)

/-! Helper lemmas. -/

/-- Association-list lookup at the key just inserted. -/
theorem lookup_cons_self (k : String) (v : ℚ) (es : List (String × ℚ)) :
    List.lookup k ((k, v) :: es) = some v := by
  simp [List.lookup]

/-- Association-list lookup skips a head with a different key. -/
theorem lookup_cons_of_ne {a k : String} (v : ℚ) (es : List (String × ℚ))
    (h : a ≠ k) : List.lookup a ((k, v) :: es) = List.lookup a es := by
  simp [List.lookup, beq_eq_false_iff_ne.mpr h]

/-- For a fixed region, the cache key determines the instance type: string
append is right-cancellative. -/
theorem priceKey_inj {t1 t2 region : String}
    (h : priceKey t1 region = priceKey t2 region) : t1 = t2 := by
  have hd : (t1.data ++ "_".data) ++ region.data =
      (t2.data ++ "_".data) ++ region.data := congrArg String.data h
  have h1 := List.append_cancel_right hd
  have h2 := List.append_cancel_right h1
  cases t1
  cases t2
  exact congrArg String.mk h2

/-- Splitting a separator-free character list yields a single segment. -/
theorem splitCharAux_no_dot :
    ∀ (l acc : List Char), (∀ c ∈ l, c ≠ '.') →
      splitCharAux l acc = [acc.reverse ++ l] := by
  intro l
  induction l with
  | nil => intro acc _; simp [splitCharAux]
  | cons c rest ih =>
    intro acc h
    have hc : c ≠ '.' := h c (List.mem_cons_self c rest)
    have hrest : ∀ x ∈ rest, x ≠ '.' := fun x hx => h x (List.mem_cons_of_mem c hx)
    simp [splitCharAux, hc, ih (c :: acc) hrest]

/-- Parsing `"t3a." ++ size` for a separator-free size gives the pair
`("t3a", size)`. -/
theorem pySplit_t3a (size : String) (h : ∀ c ∈ size.data, c ≠ '.') :
    pySplit ("t3a." ++ size) = ["t3a", size] := by
  have hd : ("t3a." ++ size).data = 't' :: '3' :: 'a' :: '.' :: size.data := rfl
  unfold pySplit
  rw [hd]
  have hstep : splitCharAux ('t' :: '3' :: 'a' :: '.' :: size.data) [] =
      ['t', '3', 'a'] :: splitCharAux size.data [] := by
    simp [splitCharAux]
  rw [hstep, splitCharAux_no_dot size.data [] h]
  rfl

/-- The best-per-category map stays pointwise non-negative through the inner
alternatives loop: the tracked best is only replaced by a strictly larger
savings value. -/
theorem evalAux_nonneg (oracle : PriceOracle) (region : String)
    (current_price : ℚ) (alts : List Alt) :
    ∀ (best : Category → ℚ) (cache : List (String × ℚ)),
      (∀ c, 0 ≤ best c) →
      ∀ c, 0 ≤ (evalAux oracle region current_price alts best cache).1 c := by
  induction alts with
  | nil => intro best cache hb c; exact hb c
  | cons alt rest ih =>
    intro best cache hb c
    simp only [evalAux]
    split_ifs with h1 h2
    · exact ih best _ hb c
    · apply ih _ _ ?_ c
      intro c2
      rcases eq_or_ne c2 alt.2.2 with he | he
      · rw [he, Function.update_same]
        exact le_of_lt (lt_of_le_of_lt (hb alt.2.2) h2)
      · rw [Function.update_noteq he]
        exact hb c2
    · exact ih best _ hb c

/-- Under a consistent cache, `get_instance_price` returns exactly the
oracle-determined price and keeps the cache consistent: a hit serves the
recorded successful price, a successful miss caches that same price, a
failed miss leaves the cache untouched. -/
theorem get_instance_price_consistent (oracle : PriceOracle) (region : String)
    (cache : List (String × ℚ)) (t : String)
    (hc : Consistent oracle region cache) :
    (get_instance_price oracle cache t region).price = priceOf oracle t region ∧
      Consistent oracle region (get_instance_price oracle cache t region).cache := by
  rcases hc t with h | h
  · cases ho : oracle t (mapRegion region) with
    | error e =>
      refine ⟨?_, ?_⟩ <;> simp only [get_instance_price, priceOf, h, ho]
      exact hc
    | ok op =>
      cases op with
      | none =>
        refine ⟨?_, ?_⟩ <;> simp only [get_instance_price, priceOf, h, ho]
        exact hc
      | some p =>
        have hpv : priceOf oracle t region = p := by
          simp only [priceOf, ho]
        refine ⟨?_, ?_⟩ <;> simp only [get_instance_price, h, ho]
        · exact hpv.symm
        · intro t2
          rcases eq_or_ne t2 t with he | he
          · subst he
            right
            rw [lookup_cons_self, hpv]
          · have hk : priceKey t2 region ≠ priceKey t region :=
              fun hk => he (priceKey_inj hk)
            rw [lookup_cons_of_ne p cache hk]
            exact hc t2
  · refine ⟨?_, ?_⟩ <;> simp only [get_instance_price, h]
    exact hc

/-- Starting from a consistent cache, the inner alternatives loop computes the
same best-per-category map as its cache-free restatement `bestPureAux`, and
leaves the cache consistent. -/
theorem evalAux_consistent (oracle : PriceOracle) (region : String)
    (current_price : ℚ) (alts : List Alt) :
    ∀ (best : Category → ℚ) (cache : List (String × ℚ)),
      Consistent oracle region cache →
      (evalAux oracle region current_price alts best cache).1 =
        bestPureAux oracle region current_price alts best ∧
      Consistent oracle region
        (evalAux oracle region current_price alts best cache).2 := by
  induction alts with
  | nil => exact fun best cache hc => ⟨rfl, hc⟩
  | cons alt rest ih =>
    intro best cache hc
    obtain ⟨hp, hc2⟩ := get_instance_price_consistent oracle region cache alt.1 hc
    simp only [evalAux, bestPureAux, hp]
    split_ifs with h1 h2
    · exact ih best _ hc2
    · exact ih _ _ hc2
    · exact ih best _ hc2

/-- If every candidate of a category is either priced 0 (skipped) or has
non-positive monthly savings, the loop never raises that category's best
above its starting 0. -/
theorem bestPureAux_zero (oracle : PriceOracle) (region : String)
    (current_price : ℚ) (cat : Category) (alts : List Alt) :
    ∀ best : Category → ℚ, best cat = 0 →
      (∀ a d c, (a, d, c) ∈ alts → c = cat →
        priceOf oracle a region = 0 ∨
          (computeSavings current_price (priceOf oracle a region)).savings_per_month ≤ 0) →
      bestPureAux oracle region current_price alts best cat = 0 := by
  induction alts with
  | nil => exact fun best hb _ => hb
  | cons alt rest ih =>
    intro best hb hall
    have htail : ∀ a d c, (a, d, c) ∈ rest → c = cat →
        priceOf oracle a region = 0 ∨
          (computeSavings current_price (priceOf oracle a region)).savings_per_month ≤ 0 :=
      fun a d c hm hcc => hall a d c (List.mem_cons_of_mem alt hm) hcc
    simp only [bestPureAux]
    split_ifs with h1 h2
    · exact ih best hb htail
    · apply ih _ ?_ htail
      rcases eq_or_ne alt.2.2 cat with he | he
      · exfalso
        have hmem : (alt.1, alt.2.1, alt.2.2) ∈ alt :: rest := List.mem_cons_self alt rest
        rcases hall alt.1 alt.2.1 alt.2.2 hmem he with hz | hnp
        · exact h1 hz
        · rw [he, hb] at h2
          exact absurd (lt_of_lt_of_le h2 hnp) (lt_irrefl 0)
      · rw [Function.update_noteq (fun hx => he hx.symm) _ best]
        exact hb
    · exact ih best hb htail

/-- Each instance's contribution to a category total is non-negative, so one
step of the enhanced walk never decreases a category total. -/
theorem processInstance_totals_mono (oracle : PriceOracle)
    (moracle : MetricsOracle) (check_metrics : Bool) (region : String)
    (st : AnalyzeState) (inst : InstanceRecord) (cat : Category) :
    st.total_potential_savings cat ≤
      (processInstance oracle moracle check_metrics region st inst).total_potential_savings cat := by
  simp only [processInstance]
  split_ifs with h1 h2
  · exact le_refl _
  · exact le_refl _
  · split
    · exact le_refl _
    · simp only
      exact le_add_of_nonneg_right
        (evalAux_nonneg oracle region _ _ _ _ (fun _ => le_refl 0) cat)

/-- Category totals are monotone along any list of instances. -/
theorem foldl_totals_mono (oracle : PriceOracle) (moracle : MetricsOracle)
    (check_metrics : Bool) (region : String) (cat : Category) :
    ∀ (insts : List InstanceRecord) (st : AnalyzeState),
      st.total_potential_savings cat ≤
        (insts.foldl (processInstance oracle moracle check_metrics region)
            st).total_potential_savings cat := by
  intro insts
  induction insts with
  | nil => exact fun st => le_refl _
  | cons i rest ih =>
    intro st
    exact le_trans
      (processInstance_totals_mono oracle moracle check_metrics region st i cat)
      (ih _)

/-- Category totals are monotone along the nested reservations walk, hence
non-negative from the zero-initialised state. -/
theorem analyze_instances_totals_nonneg (oracle : PriceOracle)
    (moracle : MetricsOracle) (check_metrics : Bool) (region : String)
    (reservations : List (List InstanceRecord)) (cat : Category) :
    0 ≤ (analyze_instances oracle moracle check_metrics region
        reservations).total_potential_savings cat := by
  unfold analyze_instances
  have key : ∀ (rs : List (List InstanceRecord)) (st : AnalyzeState),
      st.total_potential_savings cat ≤
        (rs.foldl (fun st2 insts =>
            insts.foldl (processInstance oracle moracle check_metrics region) st2)
          st).total_potential_savings cat := by
    intro rs
    induction rs with
    | nil => exact fun st => le_refl _
    | cons insts rest ih =>
      intro st
      exact le_trans
        (foldl_totals_mono oracle moracle check_metrics region cat insts st) (ih _)
  exact key reservations ⟨[], 0, 0, fun _ => 0⟩

/-- The two best-savings accumulators of the basic script's inner loop stay
non-negative. -/
theorem bestSavingsBasic_nonneg (current_price : ℚ)
    (alts : List (String × String)) :
    ∀ best : ℚ × ℚ, 0 ≤ best.1 → 0 ≤ best.2 →
      0 ≤ (bestSavingsBasic current_price alts best).1 ∧
      0 ≤ (bestSavingsBasic current_price alts best).2 := by
  induction alts with
  | nil => exact fun best h1 h2 => ⟨h1, h2⟩
  | cons alt rest ih =>
    intro best h1 h2
    obtain ⟨alt_type, description⟩ := alt
    simp only [bestSavingsBasic]
    split_ifs with hz hg hlt hlt
    · exact ih best h1 h2
    · exact ih _ (le_of_lt (lt_of_le_of_lt h1 hlt)) h2
    · exact ih best h1 h2
    · exact ih _ h1 (le_of_lt (lt_of_le_of_lt h2 hlt))
    · exact ih best h1 h2

/-- One step of the basic script's walk never decreases either fleet total. -/
theorem processInstanceBasic_mono (st : BasicState) (inst : InstanceRecord) :
    st.total_graviton_savings ≤
      (processInstanceBasic st inst).total_graviton_savings ∧
    st.total_non_graviton_savings ≤
      (processInstanceBasic st inst).total_non_graviton_savings := by
  simp only [processInstanceBasic]
  split
  · exact ⟨le_refl _, le_refl _⟩
  case _ alt rest _ =>
    have hn := bestSavingsBasic_nonneg
      (get_instance_pricing_estimate inst.instance_type) (alt :: rest) (0, 0)
      (le_refl 0) (le_refl 0)
    exact ⟨le_add_of_nonneg_right hn.1, le_add_of_nonneg_right hn.2⟩

/-! Claim theorems. -/

/-- C2 counterexample: two inputs that do not denote a valid `family.size`
instance type — `"m5."` (empty size) and `"zz9.xlarge"` (unrecognised
family) — but on which the generator returns a non-empty sequence: `"m5."`
splits into two parts, so the `m5` family rules fire with the empty size,
and an unknown family with low utilization still yields a downsize
candidate.  The claim that every input with an invalid family or size part
yields an empty sequence is therefore false. -/
theorem malformed_type_counterexample :
    get_alternative_instances "m5." none =
      [("m7g.", .plain "Graviton3 - Latest gen", .graviton),
       ("m6a.", .plain "AMD - 10% cheaper", .amd),
       ("m6i.", .plain "Intel 6th gen", .intel)] ∧
    get_alternative_instances "zz9.xlarge" (some 5) =
      [("zz9.large", .downsizeLowCpu 5, .downsize)] := by
  decide

/-- C2 (amended): whenever splitting the input on `'.'` does not yield
exactly two parts, the generator returns the empty sequence, regardless of
the utilization-average argument. -/
theorem split_not_two_parts_empty (current_type : String) (cpu_avg : Option ℚ)
    (h : (pySplit current_type).length ≠ 2) :
    get_alternative_instances current_type cpu_avg = [] := by
  unfold get_alternative_instances
  rcases hp : pySplit current_type with _ | ⟨a, _ | ⟨b, _ | ⟨c, l⟩⟩⟩
  · rfl
  · rfl
  · exact absurd (by rw [hp]; rfl) h
  · rfl

/-- C2 witness: `"m5"` splits into one part and yields no candidates. -/
theorem split_not_two_parts_empty_witness :
    (pySplit "m5").length ≠ 2 ∧ get_alternative_instances "m5" (some 5) = [] :=
  ⟨by decide, split_not_two_parts_empty "m5" (some 5) (by decide)⟩

/-- C3 counterexample: with a collaborator that always raises, the first
resolution of `("m5.large", "us-east-1")` fails and caches nothing, so the
second resolution of the same pair invokes the external collaborator again —
refuting the unconditional claim that the second call never invokes it. -/
theorem second_call_invokes_after_failure :
    (get_instance_price failOracle
        (get_instance_price failOracle [] "m5.large" "us-east-1").cache
        "m5.large" "us-east-1").invoked = true ∧
    (get_instance_price failOracle [] "m5.large" "us-east-1").price = 0 := by
  decide

/-- C3 (amended): for every (type, region) pair whose resolution does not
fail — the collaborator returns a matching price for it — resolving twice
within a run returns an identical price on the second call, and the second
call does not invoke the external collaborator (cache hit). -/
theorem cache_hit_after_success (oracle : PriceOracle)
    (cache : List (String × ℚ)) (t region : String) (p : ℚ)
    (h : oracle t (mapRegion region) = .ok (some p)) :
    (get_instance_price oracle (get_instance_price oracle cache t region).cache
        t region).price = (get_instance_price oracle cache t region).price ∧
    (get_instance_price oracle (get_instance_price oracle cache t region).cache
        t region).invoked = false := by
  cases hl : List.lookup (priceKey t region) cache with
  | some v => refine ⟨?_, ?_⟩ <;> simp only [get_instance_price, hl]
  | none =>
    refine ⟨?_, ?_⟩ <;>
      simp only [get_instance_price, hl, h, lookup_cons_self]

/-- C3 witness: a collaborator that always answers price 10 gives a second
resolution equal to the first without a second invocation. -/
theorem cache_hit_after_success_witness :
    (get_instance_price tenOracle
        (get_instance_price tenOracle [] "m5.large" "us-east-1").cache
        "m5.large" "us-east-1").price =
      (get_instance_price tenOracle [] "m5.large" "us-east-1").price ∧
    (get_instance_price tenOracle
        (get_instance_price tenOracle [] "m5.large" "us-east-1").cache
        "m5.large" "us-east-1").invoked = false :=
  cache_hit_after_success tenOracle [] "m5.large" "us-east-1" 10 rfl

/-- C5 counterexample: when the collaborator finds no matching SKU (empty
`PriceList`), the resolver does return 0 without raising, but it does NOT
report the failure externally — the warning print only runs in the
exception handler, and an empty `PriceList` raises nothing.  This refutes
the claim's assertion that both failure modes report the failure
externally. -/
theorem no_sku_not_warned :
    (get_instance_price noSkuOracle [] "m5.large" "us-east-1").price = 0 ∧
    (get_instance_price noSkuOracle [] "m5.large" "us-east-1").warned = false ∧
    (get_instance_price noSkuOracle [] "m5.large" "us-east-1").invoked = true := by
  decide

/-- C5 (amended): on a cache miss, if the external collaborator raises, the
resolver reports the failure externally (warns) and returns 0 with the
cache unchanged; if the collaborator returns no matching SKU, the resolver
returns 0 with the cache unchanged but without reporting.  In neither case
does an exception propagate to the caller: `get_instance_price` is a total
function returning a `PriceResult`. -/
theorem failure_returns_zero (oracle : PriceOracle)
    (cache : List (String × ℚ)) (t region : String)
    (hmiss : List.lookup (priceKey t region) cache = none) :
    (oracle t (mapRegion region) = .error () →
      (get_instance_price oracle cache t region).price = 0 ∧
      (get_instance_price oracle cache t region).warned = true ∧
      (get_instance_price oracle cache t region).cache = cache) ∧
    (oracle t (mapRegion region) = .ok none →
      (get_instance_price oracle cache t region).price = 0 ∧
      (get_instance_price oracle cache t region).warned = false ∧
      (get_instance_price oracle cache t region).cache = cache) := by
  constructor <;> intro h <;>
    refine ⟨?_, ?_, ?_⟩ <;> simp only [get_instance_price, hmiss, h]

/-- C5 witness: the raising collaborator at a concrete pair returns 0, warns,
and leaves the empty cache empty. -/
theorem failure_returns_zero_witness :
    (get_instance_price failOracle [] "m5.large" "us-east-1").price = 0 ∧
    (get_instance_price failOracle [] "m5.large" "us-east-1").warned = true ∧
    (get_instance_price failOracle [] "m5.large" "us-east-1").cache = [] :=
  (failure_returns_zero failOracle [] "m5.large" "us-east-1" rfl).1 rfl

/-- C9: a failed lookup (collaborator raised, or no matching SKU) leaves the
pricing cache unchanged and returns 0, so resolving the same pair again
invokes the external collaborator a second time instead of hitting the
cache. -/
theorem failed_lookup_not_cached (oracle : PriceOracle)
    (cache : List (String × ℚ)) (t region : String)
    (hmiss : List.lookup (priceKey t region) cache = none)
    (hfail : oracle t (mapRegion region) = .error () ∨
      oracle t (mapRegion region) = .ok none) :
    (get_instance_price oracle cache t region).cache = cache ∧
    (get_instance_price oracle cache t region).price = 0 ∧
    (get_instance_price oracle (get_instance_price oracle cache t region).cache
        t region).invoked = true := by
  rcases hfail with h | h <;>
    refine ⟨?_, ?_, ?_⟩ <;> simp only [get_instance_price, hmiss, h]

/-- C9 witness: concrete failing resolution that is retried on the second
call. -/
theorem failed_lookup_not_cached_witness :
    (get_instance_price failOracle [] "m5.large" "us-east-1").cache = [] ∧
    (get_instance_price failOracle [] "m5.large" "us-east-1").price = 0 ∧
    (get_instance_price failOracle
        (get_instance_price failOracle [] "m5.large" "us-east-1").cache
        "m5.large" "us-east-1").invoked = true :=
  failed_lookup_not_cached failOracle [] "m5.large" "us-east-1" rfl (Or.inl rfl)

/-- C6: for every instance id, when the metrics collaborator fails the
summarizer returns exactly the zero-sample result: `has_data = false` and
both statistics absent (`None`), never coerced to a numeric 0. -/
theorem metrics_failure_eq_empty (moracle : MetricsOracle) (instance_id : String)
    (h : moracle instance_id = .error ()) :
    get_instance_metrics (moracle instance_id) = get_instance_metrics (.ok []) ∧
    (get_instance_metrics (moracle instance_id)).has_data = false ∧
    (get_instance_metrics (moracle instance_id)).cpu_avg = none ∧
    (get_instance_metrics (moracle instance_id)).cpu_max = none := by
  rw [h]
  exact ⟨rfl, rfl, rfl, rfl⟩

/-- C6 witness: a concretely failing metrics collaborator. -/
theorem metrics_failure_eq_empty_witness :
    get_instance_metrics ((fun _ => .error () : MetricsOracle) "i-00000001") =
      get_instance_metrics (.ok []) ∧
    (get_instance_metrics ((fun _ => .error () : MetricsOracle) "i-00000001")).has_data = false ∧
    (get_instance_metrics ((fun _ => .error () : MetricsOracle) "i-00000001")).cpu_avg = none ∧
    (get_instance_metrics ((fun _ => .error () : MetricsOracle) "i-00000001")).cpu_max = none :=
  metrics_failure_eq_empty (fun _ => .error ()) "i-00000001" rfl

/-- C8: the savings computation is total — when the current price is 0 the
percent is the defined value 0 (the guard takes the else branch, no
division is attempted), and when the current price is strictly positive the
percent is `savings_per_hour / current_price * 100`. -/
theorem savings_percent_spec (current_price alt_price : ℚ) :
    (current_price = 0 →
      (computeSavings current_price alt_price).savings_percent = 0) ∧
    (0 < current_price →
      (computeSavings current_price alt_price).savings_percent =
        (computeSavings current_price alt_price).savings_per_hour /
          current_price * 100) := by
  constructor
  · intro h
    subst h
    simp [computeSavings]
  · intro h
    simp [computeSavings, h]

/-- C8 witness: both branches at concrete prices. -/
theorem savings_percent_spec_witness :
    (computeSavings 0 3).savings_percent = 0 ∧
    (computeSavings 2 1).savings_percent =
      (computeSavings 2 1).savings_per_hour / 2 * 100 :=
  ⟨(savings_percent_spec 0 3).1 rfl,
   (savings_percent_spec 2 1).2 (by norm_num)⟩

/-- C7: for every well-formed `family.size` input with a present utilization
average strictly below 20 and a size in the shrink table, the generator's
output is non-empty and its last element is the same family at the table's
smaller size, tagged downsize, with a rationale carrying the observed
average (the `Downsize (low CPU: ...%)` f-string interpolates `cpu_avg`). -/
theorem downsize_candidate_last (current_type family size smaller : String)
    (a : ℚ) (hsplit : pySplit current_type = [family, size]) (ha : a < 20)
    (hshrink : List.lookup size downsize_map = some smaller) :
    get_alternative_instances current_type (some a) ≠ [] ∧
    (get_alternative_instances current_type (some a)).getLast? =
      some (family ++ "." ++ smaller, .downsizeLowCpu a, .downsize) := by
  have hval : get_alternative_instances current_type (some a) =
      baseAlternatives family size ++
        [(family ++ "." ++ smaller, .downsizeLowCpu a, .downsize)] := by
    simp only [get_alternative_instances, hsplit, if_pos ha, hshrink]
  rw [hval]
  constructor
  · simp
  · exact List.getLast?_concat _

/-- C7 witness: `t3.large` at 12% average yields a final `t3.medium`
downsize candidate carrying 12. -/
theorem downsize_candidate_last_witness :
    get_alternative_instances "t3.large" (some 12) ≠ [] ∧
    (get_alternative_instances "t3.large" (some 12)).getLast? =
      some ("t3" ++ "." ++ "medium", .downsizeLowCpu 12, .downsize) :=
  downsize_candidate_last "t3.large" "t3" "large" "medium" 12 (by decide)
    (by decide) (by decide)

/-- C10: for every separator-free size string and every utilization
argument, the generator applied to `t3a.size` takes the burstable-family
branch (`'t3a'.startswith('t3')`), and the second candidate is the input
type itself: `t3a.size` is offered as an alternative to `t3a.size`. -/
theorem t3a_second_element_self (size : String) (cpu_avg : Option ℚ)
    (h : ∀ c ∈ size.data, c ≠ '.') :
    (get_alternative_instances ("t3a." ++ size) cpu_avg)[1]? =
      some ("t3a." ++ size, .plain "AMD - 10% cheaper", .amd) := by
  have hsplit := pySplit_t3a size h
  have hbase : baseAlternatives "t3a" size =
      [("t4g." ++ size, .plain "Graviton2 ARM - 20% cheaper", .graviton),
       ("t3a." ++ size, .plain "AMD - 10% cheaper", .amd)] := by
    have ht : strStartsWith "t3" "t3a" = true := rfl
    simp only [baseAlternatives, ht, if_true]
  simp only [get_alternative_instances, hsplit, hbase]
  rcases cpu_avg with _ | a
  · rfl
  · by_cases ha : a < 20
    · simp only [if_pos ha]
      cases hlk : List.lookup size downsize_map with
      | none => rfl
      | some sm => rfl
    · simp only [if_neg ha]
      rfl

/-- C10 witness: `t3a.large` with no utilization data lists itself second. -/
theorem t3a_second_element_self_witness :
    (get_alternative_instances ("t3a." ++ "large") none)[1]? =
      some ("t3a." ++ "large", .plain "AMD - 10% cheaper", .amd) :=
  t3a_second_element_self "large" none (by decide)

/-- C4 counterexample: the basic script's loop has no lifecycle-state check
at all — a terminated `t3.large` instance is still counted into
`instances_analyzed`, contradicting the claim that terminated instances are
skipped with no contribution in every per-instance evaluation (the claim's
cited sources include the basic script's loop). -/
theorem basic_counts_terminated :
    (processInstanceBasic ⟨0, 0, 0, 0⟩
        ⟨"i-0badbeef", "t3.large", "terminated"⟩).instances_analyzed = 1 := by
  decide

/-- C4 (amended): in the enhanced analyzer, an instance whose state is
terminated, or whose current price resolves to 0, or whose generated
candidate set is empty, is skipped with no contribution to the
instances-analyzed count, the total monthly cost, or any category total.
In the basic variant only the empty-candidate condition causes a skip (a
terminated instance with known alternatives is still counted). -/
theorem skip_conditions_no_contribution (oracle : PriceOracle)
    (moracle : MetricsOracle) (check_metrics : Bool) (region : String)
    (st : AnalyzeState) (inst : InstanceRecord)
    (stb : BasicState) (instb : InstanceRecord) :
    ((inst.state = "terminated" ∨
        (get_instance_price oracle st.cache inst.instance_type region).price = 0 ∨
        get_alternative_instances inst.instance_type
          (usedCpuAvg moracle check_metrics inst) = []) →
      (processInstance oracle moracle check_metrics region st inst).instances_analyzed =
        st.instances_analyzed ∧
      (processInstance oracle moracle check_metrics region st inst).total_current_cost =
        st.total_current_cost ∧
      ∀ c, (processInstance oracle moracle check_metrics region st
          inst).total_potential_savings c = st.total_potential_savings c) ∧
    (get_alternative_instances_basic instb.instance_type = [] →
      processInstanceBasic stb instb = stb) := by
  constructor
  · intro h
    simp only [processInstance]
    by_cases h1 : inst.state = "terminated"
    · simp only [if_pos h1]
      exact ⟨trivial, trivial, fun c => trivial⟩
    · simp only [if_neg h1]
      by_cases h2 :
          (get_instance_price oracle st.cache inst.instance_type region).price = 0
      · simp only [if_pos h2]
        exact ⟨trivial, trivial, fun c => trivial⟩
      · have h3 : get_alternative_instances inst.instance_type
            (usedCpuAvg moracle check_metrics inst) = [] := by
          rcases h with h | h | h
          · exact absurd h h1
          · exact absurd h h2
          · exact h
        simp only [if_neg h2, h3]
        exact ⟨trivial, trivial, fun c => trivial⟩
  · intro h
    simp only [processInstanceBasic, h]

/-- C4 witness: a terminated instance leaves the enhanced state's counters
and totals unchanged, and a type outside the basic tables leaves the basic
state unchanged. -/
theorem skip_conditions_no_contribution_witness :
    (processInstance tenOracle (fun _ => .ok []) true "us-east-1"
        ⟨[], 3, 7, fun _ => 1⟩ ⟨"i-1", "m5.large", "terminated"⟩).instances_analyzed = 3 ∧
    processInstanceBasic ⟨5, 9, 2, 4⟩ ⟨"i-2", "zzz.big", "running"⟩ = ⟨5, 9, 2, 4⟩ :=
  ⟨((skip_conditions_no_contribution tenOracle (fun _ => .ok []) true "us-east-1"
      ⟨[], 3, 7, fun _ => 1⟩ ⟨"i-1", "m5.large", "terminated"⟩
      ⟨5, 9, 2, 4⟩ ⟨"i-2", "zzz.big", "running"⟩).1 (Or.inl rfl)).1,
   (skip_conditions_no_contribution tenOracle (fun _ => .ok []) true "us-east-1"
      ⟨[], 3, 7, fun _ => 1⟩ ⟨"i-1", "m5.large", "terminated"⟩
      ⟨5, 9, 2, 4⟩ ⟨"i-2", "zzz.big", "running"⟩).2 (by decide)⟩

/-- C1: per-instance per-category best savings are non-negative; category
totals are monotonically non-decreasing as instances are added, one step at
a time, along any instance list, and across the whole nested walk from the
zero-initialised state; the same monotonicity holds for the basic script's
two accumulators; and an instance whose candidates in a category all
resolve to price 0 or have non-positive monthly savings contributes exactly
0 to that category (its best stays 0), never a negative amount. -/
theorem fleet_totals_monotone_and_best_nonneg (oracle : PriceOracle)
    (moracle : MetricsOracle) (check_metrics : Bool) (region : String)
    (current_price : ℚ) (cache : List (String × ℚ)) (alternatives : List Alt)
    (alternativesB : List (String × String)) (st : AnalyzeState)
    (inst : InstanceRecord) (insts : List InstanceRecord)
    (reservations : List (List InstanceRecord)) (cat : Category)
    (stb : BasicState) (instb : InstanceRecord) :
    0 ≤ (evalAlternatives oracle region current_price cache alternatives).1 cat ∧
    st.total_potential_savings cat ≤
      (processInstance oracle moracle check_metrics region st
        inst).total_potential_savings cat ∧
    st.total_potential_savings cat ≤
      (insts.foldl (processInstance oracle moracle check_metrics region)
        st).total_potential_savings cat ∧
    0 ≤ (analyze_instances oracle moracle check_metrics region
        reservations).total_potential_savings cat ∧
    0 ≤ (bestSavingsBasic current_price alternativesB (0, 0)).1 ∧
    0 ≤ (bestSavingsBasic current_price alternativesB (0, 0)).2 ∧
    stb.total_graviton_savings ≤
      (processInstanceBasic stb instb).total_graviton_savings ∧
    stb.total_non_graviton_savings ≤
      (processInstanceBasic stb instb).total_non_graviton_savings ∧
    (Consistent oracle region cache →
      (∀ a d c, (a, d, c) ∈ alternatives → c = cat →
        priceOf oracle a region = 0 ∨
          (computeSavings current_price
            (priceOf oracle a region)).savings_per_month ≤ 0) →
      (evalAlternatives oracle region current_price cache alternatives).1 cat = 0) := by
  refine ⟨?_, ?_, ?_, ?_, ?_, ?_, ?_, ?_, ?_⟩
  · exact evalAux_nonneg oracle region current_price alternatives
      (fun _ => 0) cache (fun _ => le_refl 0) cat
  · exact processInstance_totals_mono oracle moracle check_metrics region st inst cat
  · exact foldl_totals_mono oracle moracle check_metrics region cat insts st
  · exact analyze_instances_totals_nonneg oracle moracle check_metrics region
      reservations cat
  · exact (bestSavingsBasic_nonneg current_price alternativesB (0, 0)
      (le_refl 0) (le_refl 0)).1
  · exact (bestSavingsBasic_nonneg current_price alternativesB (0, 0)
      (le_refl 0) (le_refl 0)).2
  · exact (processInstanceBasic_mono stb instb).1
  · exact (processInstanceBasic_mono stb instb).2
  · intro hc hall
    unfold evalAlternatives
    rw [(evalAux_consistent oracle region current_price alternatives
      (fun _ => 0) cache hc).1]
    exact bestPureAux_zero oracle region current_price cat alternatives
      (fun _ => 0) rfl hall

/-- C1 witness: with a collaborator always pricing 10 and a current price of
1, the single graviton candidate is a cost increase, and the instance's
graviton best is exactly 0 (and non-negative). -/
theorem fleet_totals_monotone_and_best_nonneg_witness :
    0 ≤ (evalAlternatives tenOracle "us-east-1" 1 []
        [("t4g.large", .plain "Graviton2 ARM - 20% cheaper",
          Category.graviton)]).1 Category.graviton ∧
    (evalAlternatives tenOracle "us-east-1" 1 []
        [("t4g.large", .plain "Graviton2 ARM - 20% cheaper",
          Category.graviton)]).1 Category.graviton = 0 := by
  have h := fleet_totals_monotone_and_best_nonneg tenOracle (fun _ => .ok [])
    true "us-east-1" 1 []
    [("t4g.large", .plain "Graviton2 ARM - 20% cheaper", Category.graviton)]
    [] ⟨[], 0, 0, fun _ => 0⟩ ⟨"i-1", "m5.large", "running"⟩ [] []
    Category.graviton ⟨0, 0, 0, 0⟩ ⟨"i-2", "t3.large", "running"⟩
  refine ⟨h.1, h.2.2.2.2.2.2.2.2 (fun t => Or.inl rfl) ?_⟩
  intro a d c hm hcc
  simp only [List.mem_singleton, Prod.mk.injEq] at hm
  obtain ⟨rfl, rfl, rfl⟩ := hm
  right
  have hp : priceOf tenOracle "t4g.large" "us-east-1" = 10 := rfl
  rw [hp]
  norm_num [computeSavings]
